import Mathlib

/-!
Verification of the chunked VHS upscale pipeline orchestrator
(`vhs_upscale_pipeline.py`).

The orchestrator is shallowly embedded as a state-transition function over
an explicit filesystem state.  Files are modelled as `Option Nat` (absence,
or presence with a byte size); directories as `Bool`.  External tools
(ffmpeg, Real-ESRGAN, rife-ncnn-vulkan) are modelled by an environment
`Env` recording, for each invocation site, whether the tool succeeds and
what it produces.  A run returns the final filesystem, the ordered trace of
external-tool invocations, and `Option Err` (fatal error / `sys.exit`).
-/

namespace VhsPipeline

/-! ## File-existence checks (the stage-completion decisions)

`fileDone` embeds the pattern
`os.path.exists(p) and os.path.getsize(p) > 0`
(equivalently, the negation of `not os.path.exists(p) or os.path.getsize(p) == 0`),
used at lines 280, 337 and 347 of the source.
`fileExists` embeds a bare `os.path.exists(p)` check, used at lines
302 and 493 of the source. -/

def fileDone (f : Option Nat) : Bool :=
  match f with
  | none => false
  | some s => decide (0 < s)

def fileExists (f : Option Nat) : Bool :=
  f.isSome

/-! ## Path layout (source lines 13-27, 214-216, 300-335)

`os.path.join` on these relative paths concatenates with a slash.
`pad3` embeds the Python format `f"chunk_{i:03d}"`'s zero padding. -/

def OUTPUT_DIR : String := "outputs"
def PROCESSING_DIR : String := "processing_chunks"
def INPUT_CHUNKS_DIR : String := PROCESSING_DIR ++ "/0_input_chunks"
def ESRGAN_CHUNKS_DIR : String := PROCESSING_DIR ++ "/1_esrgan_chunks"
def RIFE_CHUNKS_DIR : String := PROCESSING_DIR ++ "/2_rife_chunks"
def CONCAT_FILE : String := PROCESSING_DIR ++ "/concat_list.txt"

def pad3 (i : Nat) : String :=
  if i < 10 then "00" ++ toString i
  else if i < 100 then "0" ++ toString i
  else toString i

def chunkName (i : Nat) : String := "chunk_" ++ pad3 i

def inputChunkPath (i : Nat) (ext : String) : String :=
  INPUT_CHUNKS_DIR ++ "/" ++ chunkName i ++ ext

def esrganTempWorkDir (i : Nat) : String :=
  ESRGAN_CHUNKS_DIR ++ "/" ++ chunkName i ++ "_temp_work"

def esrganOutputFile (i : Nat) : String :=
  ESRGAN_CHUNKS_DIR ++ "/" ++ chunkName i ++ "_esrgan.mp4"

def rifeInFramesDir (i : Nat) : String :=
  ESRGAN_CHUNKS_DIR ++ "/" ++ chunkName i ++ "_rife_in_frames"

def rifeOutFramesDir (i : Nat) : String :=
  RIFE_CHUNKS_DIR ++ "/" ++ chunkName i ++ "_rife_out_frames"

def rifeOutputFile (i : Nat) : String :=
  RIFE_CHUNKS_DIR ++ "/" ++ chunkName i ++ "_rife.mp4"

def originalAudioFile (basename : String) : String :=
  PROCESSING_DIR ++ "/" ++ basename ++ "_original.mp3"

def prefilteredChunk (i : Nat) : String :=
  esrganTempWorkDir i ++ "/" ++ chunkName i ++ "_prefiltered.mp4"

/-! ## External command argument vectors

Embedded verbatim from the source; the output path of an ffmpeg invocation
is its final argument. -/

def cmd_audio (inputVideo basename : String) : List String :=
  ["ffmpeg", "-y", "-i", inputVideo, "-vn", "-acodec", "copy",
   originalAudioFile basename]

def cmd_prefilter (i : Nat) (ext : String) : List String :=
  ["ffmpeg", "-y", "-i", inputChunkPath i ext,
   "-vf", "hqdn3d=3:3:6:6,pp=ac,unsharp=3:3:0.6",
   "-c:v", "libx264", "-crf", "16",
   "-preset", "slower",
   "-pix_fmt", "yuv420p",
   prefilteredChunk i]

def cmd_encode (i : Nat) (outputFps : String) : List String :=
  ["ffmpeg",
   "-framerate", outputFps,
   "-i", rifeOutFramesDir i ++ "/%08d.png",
   "-c:v", "libx264",
   "-pix_fmt", "yuv420p",
   "-crf", "17",
   "-preset", "slower",
   rifeOutputFile i]

/-! ## Write/rename behaviour of the producing components (for the
partial-write hazard).

Each producing component is abstracted to the sequence of filesystem
operations it performs on video/audio artifacts:

* audio extraction (lines 282-288): ffmpeg writes `ORIGINAL_AUDIO_FILE`
  directly (final argument of `cmd_audio`);
* the enhancement stage (lines 352-399): ffmpeg writes the prefiltered
  temp file, Real-ESRGAN writes a candidate file inside the scratch
  directory, and `os.rename` (line 393) moves the single candidate to the
  canonical enhanced-video path;
* the RIFE encode (lines 448-459): ffmpeg writes `rife_output_file`
  directly (final argument of `cmd_encode`). -/

inductive FsOp where
  | writeTo : String → FsOp
  | renameTo : String → String → FsOp
deriving DecidableEq, Repr

def candidatePath (i : Nat) (cand : String) : String :=
  esrganTempWorkDir i ++ "/" ++ cand

def audioWriteOps (inputVideo basename : String) : List FsOp :=
  [FsOp.writeTo ((cmd_audio inputVideo basename).getLastD "")]

def esrganWriteOps (i : Nat) (ext cand : String) : List FsOp :=
  [FsOp.writeTo ((cmd_prefilter i ext).getLastD ""),
   FsOp.writeTo (candidatePath i cand),
   FsOp.renameTo (candidatePath i cand) (esrganOutputFile i)]

def encodeWriteOps (i : Nat) (outputFps : String) : List FsOp :=
  [FsOp.writeTo ((cmd_encode i outputFps).getLastD "")]

/-- Checks that a component produces `target` only by renaming a staging
file onto it and never by writing to `target` directly. -/
def stagedWrite (ops : List FsOp) (target : String) : Bool :=
  (ops.all fun op => op ≠ FsOp.writeTo target) &&
  (ops.any fun op =>
    match op with
    | FsOp.renameTo _ dst => dst = target
    | _ => false)

/-! ## RIFE interpolation verification (lines 435-445)

Python integers: `len(out_frames) < len(in_frames) * 2 - 2` is evaluated
over ℤ (no truncation at zero). -/

def rifeVerifyFails (inFrames outFrames : Nat) : Bool :=
  decide ((outFrames : Int) < (inFrames : Int) * 2 - 2)

/-! ## Disk budget estimator (`autotune_chunk_size`, lines 129-165)

Floats are modelled as rationals.  The three probe inputs are `Option`s:
`none` models an exception raised while obtaining them (unreadable disk
stats / metadata).  `autotuneCore` models the `try` body, returning `none`
where the body raises (`check_disk_space` raises when fewer than 10 GB are
free, line 107; the division raises `ZeroDivisionError` when the burn rate
is zero, line 153).  `autotune_chunk_size` wraps it with the
`except`-fallback of 10 seconds (line 165); `int()` on the non-negative
clamped value is the floor. -/

def MIN_CHUNK_SEC : ℚ := 10
def MAX_CHUNK_SEC : ℚ := 120
def DISK_SAFETY_MARGIN : ℚ := 1 / 2
def EST_PNG_COMP_RATIO : ℚ := 2 / 5

def autotuneCore (freeDiskGB : Option ℚ) (dims : Option (Nat × Nat))
    (fps : Option ℚ) (scaleFactor : Nat) : Option ℚ :=
  match freeDiskGB, dims, fps with
  | some free, some (inW, inH), some fpsV =>
    if free < 10 then none
    else
      let outW : ℚ := (inW : ℚ) * (scaleFactor : ℚ)
      let outH : ℚ := (inH : ℚ) * (scaleFactor : ℚ)
      let bytesPerPixel : ℚ := 3
      let pixels : ℚ := outW * outH
      let estPngMB : ℚ := pixels * bytesPerPixel * EST_PNG_COMP_RATIO / 1024 ^ 2
      let pngsPerSec : ℚ := fpsV * 2
      let mbPerSec : ℚ := pngsPerSec * estPngMB
      if mbPerSec = 0 then none
      else
        let usableTempGB : ℚ := free * DISK_SAFETY_MARGIN
        let maxChunkSecDisk : ℚ := usableTempGB * 1024 / mbPerSec
        some (max MIN_CHUNK_SEC (min maxChunkSecDisk MAX_CHUNK_SEC))
  | _, _, _ => none

def autotune_chunk_size (freeDiskGB : Option ℚ) (dims : Option (Nat × Nat))
    (fps : Option ℚ) (scaleFactor : Nat) : ℤ :=
  match autotuneCore freeDiskGB dims fps scaleFactor with
  | none => 10
  | some q => ⌊q⌋

/-! ## The orchestrator state machine (`main`, lines 194-534)

State:
* `metadata` — the identity record `processing_chunks/metadata.json`:
  `none` = absent, `some none` = present but corrupt/unreadable,
  `some (some id)` = present and readable;
* `audio` — the extracted original audio file;
* `chunks i` — chunk `i`'s artifacts: input segment, enhanced video,
  final interpolated video (sizes), and the two frame directories;
* `finalVideo` — the final output in `outputs/` (outside the working
  directory, hence untouched by a working-directory wipe).

Environment `Env` records the behaviour of each external invocation:
a success flag per site and the artifacts produced on success
(`candCount i` is the number of candidate output MP4s Real-ESRGAN left in
the scratch directory, `inFrameCount`/`outFrameCount` the frame counts
found by the RIFE verification).

`TEST_MODE_CHUNKS` is `None` in the source (line 28), so
`chunks_to_process = total_chunks` and the concatenation step runs. -/

structure Identity where
  inputVideo : String
  scaleFactor : Nat
deriving DecidableEq, Repr

structure Chunk where
  input : Option Nat
  esr : Option Nat
  rife : Option Nat
  inFramesDir : Bool
  outFramesDir : Bool
deriving DecidableEq, Repr

def emptyChunk : Chunk :=
  { input := none, esr := none, rife := none,
    inFramesDir := false, outFramesDir := false }

structure FS where
  metadata : Option (Option Identity)
  audio : Option Nat
  chunks : Nat → Chunk
  finalVideo : Option Nat

def emptyFS : FS :=
  { metadata := none, audio := none, chunks := fun _ => emptyChunk,
    finalVideo := none }

structure Env where
  audioOk : Bool
  audioSize : Nat
  splitOk : Bool
  splitProduces : Nat → Option Nat
  prefilterOk : Nat → Bool
  esrganOk : Nat → Bool
  candCount : Nat → Nat
  esrSize : Nat → Nat
  extractOk : Nat → Bool
  rifeOk : Nat → Bool
  inFrameCount : Nat → Nat
  outFrameCount : Nat → Nat
  encodeOk : Nat → Bool
  encSize : Nat → Nat
  concatOk : Bool
  finalSize : Nat

inductive Ev where
  | audioExtract : Ev
  | split : Ev
  | prefilter : Nat → Ev
  | esrganRun : Nat → Ev
  | extractFrames : Nat → Ev
  | rifeRun : Nat → Ev
  | encode : Nat → Ev
  | concat : Ev
deriving DecidableEq, Repr

/-- Chunk index of a per-chunk stage invocation (`none` for the job-level
split, audio extraction and concatenation). -/
def evChunk : Ev → Option Nat
  | Ev.audioExtract => none
  | Ev.split => none
  | Ev.prefilter i => some i
  | Ev.esrganRun i => some i
  | Ev.extractFrames i => some i
  | Ev.rifeRun i => some i
  | Ev.encode i => some i
  | Ev.concat => none

inductive Err where
  | conflictExit : Err
  | audioFail : Err
  | audioEmpty : Err
  | splitFail : Err
  | prefilterFail : Err
  | esrganFail : Err
  | ambiguousOutput : Err
  | extractFail : Err
  | rifeFail : Err
  | verifyFail : Err
  | encodeFail : Err
  | concatFail : Err
deriving DecidableEq, Repr

/-- Working-directory wipe (`safe_rmtree(PROCESSING_DIR)`) followed by the
unconditional rewrite of the identity record (lines 257-259).  The final
video lives under `outputs/`, outside `processing_chunks/`. -/
def wipeAndRecord (fs : FS) (cur : Identity) : FS :=
  { metadata := some (some cur), audio := none,
    chunks := fun _ => emptyChunk, finalVideo := fs.finalVideo }

/-- Python's `str.lower()` as applied to the `y/n` prompt response
(ASCII case folding, character by character). -/
def strLower (s : String) : String :=
  ⟨s.data.map Char.toLower⟩

/-- Job Identity Guard (lines 225-259).  Reads the identity record; on a
readable mismatch, either wipes (with `--force`, or on an affirmative
prompt response `y`) or exits with status 1; a corrupt record wipes
unconditionally; otherwise the record is (re)written and the run
proceeds. -/
def guardStep (fs : FS) (cur : Identity) (force : Bool) (response : String) :
    FS × Option Err :=
  match fs.metadata with
  | none => ({ fs with metadata := some (some cur) }, none)
  | some none => (wipeAndRecord fs cur, none)
  | some (some old) =>
    if old = cur then ({ fs with metadata := some (some cur) }, none)
    else if force then (wipeAndRecord fs cur, none)
    else if strLower response = "y" then (wipeAndRecord fs cur, none)
    else (fs, some Err.conflictExit)

/-- Audio extraction (lines 280-298): skipped when the audio file exists
and is non-empty; otherwise ffmpeg runs, and a missing/empty result is
fatal (line 295-296). -/
def audioStep (env : Env) (fs : FS) : FS × List Ev × Option Err :=
  if fileDone fs.audio then (fs, [], none)
  else if !env.audioOk then (fs, [Ev.audioExtract], some Err.audioFail)
  else
    let fs1 := { fs with audio := some env.audioSize }
    if !fileDone fs1.audio then (fs1, [Ev.audioExtract], some Err.audioEmpty)
    else (fs1, [Ev.audioExtract], none)

/-- Chunk Splitter (lines 300-313): skipped when the first expected
segment `chunk_000` exists (existence only — no size check); otherwise
ffmpeg segments the video, overwriting the segments it produces and
leaving other files alone. -/
def splitStep (env : Env) (fs : FS) : FS × List Ev × Option Err :=
  if fileExists (fs.chunks 0).input then (fs, [], none)
  else if !env.splitOk then (fs, [Ev.split], some Err.splitFail)
  else
    ({ fs with chunks := fun i =>
        { fs.chunks i with
          input := match env.splitProduces i with
                   | some s => some s
                   | none => (fs.chunks i).input } },
     [Ev.split], none)

/-- Per-chunk intermediate cleanup (`cleanup_intermediate_files`,
lines 114-127): removes the input segment, the enhanced video and both
frame directories; the final chunk output is kept. -/
def cleanupChunk (c : Chunk) : Chunk :=
  { c with input := none, esr := none,
           inFramesDir := false, outFramesDir := false }

/-- Enhancement stage (lines 347-402): skipped when the enhanced video
exists and is non-empty; otherwise prefilter, Real-ESRGAN, then locate
exactly one candidate output and rename it onto the canonical path
(`os.rename`, line 393). -/
def enhanceStage (env : Env) (i : Nat) (c : Chunk) :
    Chunk × List Ev × Option Err :=
  if fileDone c.esr then (c, [], none)
  else if !env.prefilterOk i then
    (c, [Ev.prefilter i], some Err.prefilterFail)
  else if !env.esrganOk i then
    (c, [Ev.prefilter i, Ev.esrganRun i], some Err.esrganFail)
  else if env.candCount i ≠ 1 then
    (c, [Ev.prefilter i, Ev.esrganRun i], some Err.ambiguousOutput)
  else
    ({ c with esr := some (env.esrSize i) },
     [Ev.prefilter i, Ev.esrganRun i], none)

/-- Interpolation stage (lines 404-466): frame extraction, RIFE, the
frame-count verification (lines 435-445), then the encode writing the
final chunk output directly. -/
def interpolateStage (env : Env) (i : Nat) (c : Chunk) :
    Chunk × List Ev × Option Err :=
  let c1 := { c with inFramesDir := true }
  if !env.extractOk i then
    (c1, [Ev.extractFrames i], some Err.extractFail)
  else
    let c2 := { c1 with outFramesDir := true }
    if !env.rifeOk i then
      (c2, [Ev.extractFrames i, Ev.rifeRun i], some Err.rifeFail)
    else if rifeVerifyFails (env.inFrameCount i) (env.outFrameCount i) then
      (c2, [Ev.extractFrames i, Ev.rifeRun i], some Err.verifyFail)
    else if !env.encodeOk i then
      (c2, [Ev.extractFrames i, Ev.rifeRun i, Ev.encode i],
       some Err.encodeFail)
    else
      ({ c2 with rife := some (env.encSize i) },
       [Ev.extractFrames i, Ev.rifeRun i, Ev.encode i], none)

/-- One iteration of the chunk loop (lines 323-473): skip-check on the
final chunk output (existence and non-zero size) with stray-intermediate
cleanup; missing-input skip; otherwise enhancement, interpolation and the
aggressive cleanup on completion (line 469). -/
def processChunk (env : Env) (i : Nat) (c : Chunk) :
    Chunk × List Ev × Option Err :=
  if fileDone c.rife then (cleanupChunk c, [], none)
  else if !fileExists c.input then (c, [], none)
  else
    let r1 := enhanceStage env i c
    match r1.2.2 with
    | some e => (r1.1, r1.2.1, some e)
    | none =>
      let r2 := interpolateStage env i r1.1
      match r2.2.2 with
      | some e => (r2.1, r1.2.1 ++ r2.2.1, some e)
      | none => (cleanupChunk r2.1, r1.2.1 ++ r2.2.1, none)

/-- Pointwise update of the chunk table at one index. -/
def updAt (cs : Nat → Chunk) (i : Nat) (c : Chunk) : Nat → Chunk :=
  fun j => if j = i then c else cs j

/-- The chunk loop `for i in range(chunks_to_process)` (lines 323-473),
starting at index `s` with `k` iterations left; a fatal chunk error
aborts the whole run (lines 537-543). -/
def runChunksAux (env : Env) : Nat → Nat → (Nat → Chunk) →
    (Nat → Chunk) × List Ev × Option Err
  | _, 0, cs => (cs, [], none)
  | s, k + 1, cs =>
    let r := processChunk env s (cs s)
    let cs1 := updAt cs s r.1
    match r.2.2 with
    | some e => (cs1, r.2.1, some e)
    | none =>
      let r2 := runChunksAux env (s + 1) k cs1
      (r2.1, r.2.1 ++ r2.2.1, r2.2.2)

/-- Final concatenation and audio muxing (lines 486-519): runs
unconditionally (no completion check on the final output; ffmpeg is
invoked with `-y`). -/
def concatStep (env : Env) (fs : FS) : FS × List Ev × Option Err :=
  if !env.concatOk then (fs, [Ev.concat], some Err.concatFail)
  else ({ fs with finalVideo := some env.finalSize }, [Ev.concat], none)

/-- The whole pipeline `main` for a job of `totalChunks` chunks: identity
guard, audio extraction, split, the chunk loop, concatenation.  Returns
the final filesystem, the trace of external-tool invocations (split,
audio extraction, per-chunk stages, concatenation) and an optional fatal
error (`some Err.conflictExit` models `sys.exit(1)` at the guard). -/
def run (env : Env) (totalChunks : Nat) (cur : Identity) (force : Bool)
    (response : String) (fs : FS) : FS × List Ev × Option Err :=
  let g := guardStep fs cur force response
  match g.2 with
  | some e => (g.1, [], some e)
  | none =>
    let a := audioStep env g.1
    match a.2.2 with
    | some e => (a.1, a.2.1, some e)
    | none =>
      let sp := splitStep env a.1
      match sp.2.2 with
      | some e => (sp.1, a.2.1 ++ sp.2.1, some e)
      | none =>
        let l := runChunksAux env 0 totalChunks sp.1.chunks
        let fs2 : FS := { sp.1 with chunks := l.1 }
        match l.2.2 with
        | some e => (fs2, a.2.1 ++ sp.2.1 ++ l.2.1, some e)
        | none =>
          let f := concatStep env fs2
          (f.1, a.2.1 ++ sp.2.1 ++ l.2.1 ++ f.2.1, f.2.2)

/-! ## The Reassembler's concatenation list (lines 486-496)

`glob` finds the existing final chunk outputs; the loop then walks
expected indices `0, 1, ...` up to that count, appending each existing
file and breaking (with a warning) at the first missing index. -/

/-- Number of files matching `*_rife.mp4` when all of them have an index
below `bound` (the `len(glob(...))` of line 486-487). -/
def globCount (rife : Nat → Option Nat) (bound : Nat) : Nat :=
  ((List.range bound).filter fun i => fileExists (rife i)).length

/-- The index-walking loop of lines 491-496, from index `s` with `k`
iterations left. -/
def contigGo (rife : Nat → Option Nat) : Nat → Nat → List Nat
  | _, 0 => []
  | s, k + 1 =>
    if fileExists (rife s) then s :: contigGo rife (s + 1) k else []

/-- The list of chunk indices written to `concat_list.txt`. -/
def contigList (rife : Nat → Option Nat) (total : Nat) : List Nat :=
  contigGo rife 0 total

/-! ## Concrete instances used by witnesses and counterexamples -/

/-- Environment in which every external tool succeeds and produces
non-empty artifacts; RIFE exactly doubles 10 input frames. -/
def allOkEnv : Env :=
  { audioOk := true, audioSize := 1,
    splitOk := true, splitProduces := fun i => if i = 0 then some 1 else none,
    prefilterOk := fun _ => true, esrganOk := fun _ => true,
    candCount := fun _ => 1, esrSize := fun _ => 1,
    extractOk := fun _ => true, rifeOk := fun _ => true,
    inFrameCount := fun _ => 10, outFrameCount := fun _ => 20,
    encodeOk := fun _ => true, encSize := fun _ => 1,
    concatOk := true, finalSize := 1 }

def jobId : Identity := { inputVideo := "/abs/video.avi", scaleFactor := 2 }

/-! ## Basic lemmas about the loop and the steps -/

theorem updAt_eq (cs : Nat → Chunk) (i : Nat) (c : Chunk) :
    updAt cs i c i = c := by
  simp [updAt]

theorem updAt_ne (cs : Nat → Chunk) (i j : Nat) (c : Chunk) (h : j ≠ i) :
    updAt cs i c j = cs j := by
  simp [updAt, h]

theorem enhanceStage_evChunk (env : Env) (i : Nat) (c : Chunk) :
    ∀ e ∈ (enhanceStage env i c).2.1, evChunk e = some i := by
  unfold enhanceStage
  split
  · intro e he; fin_cases he
  · split
    · intro e he; fin_cases he <;> rfl
    · split
      · intro e he; fin_cases he <;> rfl
      · split
        · intro e he; fin_cases he <;> rfl
        · intro e he; fin_cases he <;> rfl

theorem interpolateStage_evChunk (env : Env) (i : Nat) (c : Chunk) :
    ∀ e ∈ (interpolateStage env i c).2.1, evChunk e = some i := by
  unfold interpolateStage
  split
  · intro e he; fin_cases he <;> rfl
  · split
    · intro e he; fin_cases he <;> rfl
    · split
      · intro e he; fin_cases he <;> rfl
      · split
        · intro e he; fin_cases he <;> rfl
        · intro e he; fin_cases he <;> rfl

theorem processChunk_evChunk (env : Env) (i : Nat) (c : Chunk) :
    ∀ e ∈ (processChunk env i c).2.1, evChunk e = some i := by
  unfold processChunk
  split
  · intro e he; fin_cases he
  · split
    · intro e he; fin_cases he
    · cases h1 : (enhanceStage env i c).2.2 with
      | some er =>
        simp only [h1]
        exact fun e he => enhanceStage_evChunk env i c e he
      | none =>
        cases h2 : (interpolateStage env i (enhanceStage env i c).1).2.2 with
        | some er =>
          simp only [h1, h2]
          intro e he
          rcases List.mem_append.mp he with h | h
          · exact enhanceStage_evChunk env i c e h
          · exact interpolateStage_evChunk env i _ e h
        | none =>
          simp only [h1, h2]
          intro e he
          rcases List.mem_append.mp he with h | h
          · exact enhanceStage_evChunk env i c e h
          · exact interpolateStage_evChunk env i _ e h

/-- The skip-check path of a chunk whose final output is non-empty. -/
theorem processChunk_done (env : Env) (i : Nat) (c : Chunk)
    (h : fileDone c.rife = true) :
    processChunk env i c = (cleanupChunk c, [], none) := by
  simp [processChunk, h]

/-- The missing-input path of the chunk loop. -/
theorem processChunk_noInput (env : Env) (i : Nat) (c : Chunk)
    (h : fileDone c.rife = false) (h2 : fileExists c.input = false) :
    processChunk env i c = (c, [], none) := by
  simp [processChunk, h, h2]

/-- Full processing of a fresh chunk when every stage succeeds. -/
theorem processChunk_fresh (env : Env) (i : Nat) (c : Chunk)
    (hRife : fileDone c.rife = false) (hIn : fileExists c.input = true)
    (hEsr : fileDone c.esr = false)
    (hPF : env.prefilterOk i = true) (hE : env.esrganOk i = true)
    (hCand : env.candCount i = 1)
    (hEx : env.extractOk i = true) (hR : env.rifeOk i = true)
    (hV : rifeVerifyFails (env.inFrameCount i) (env.outFrameCount i) = false)
    (hEn : env.encodeOk i = true) :
    processChunk env i c =
      ({ input := none, esr := none, rife := some (env.encSize i),
         inFramesDir := false, outFramesDir := false },
       [Ev.prefilter i, Ev.esrganRun i, Ev.extractFrames i, Ev.rifeRun i,
        Ev.encode i], none) := by
  simp [processChunk, hRife, hIn, enhanceStage, hEsr, hPF, hE, hCand,
        interpolateStage, hEx, hR, hV, hEn, cleanupChunk]

/-- The enhancement stage is silent only on its cache-skip branch. -/
theorem enhanceStage_nil (env : Env) (i : Nat) (c : Chunk)
    (h : (enhanceStage env i c).2.1 = []) :
    enhanceStage env i c = (c, [], none) := by
  unfold enhanceStage at h ⊢
  split_ifs at h ⊢ <;> simp_all

/-- The interpolation stage always invokes at least the frame
extraction. -/
theorem interpolateStage_trace_ne (env : Env) (i : Nat) (c : Chunk) :
    (interpolateStage env i c).2.1 ≠ [] := by
  unfold interpolateStage
  split_ifs <;> simp

/-- A chunk that is neither complete nor missing its input invokes at
least one external tool. -/
theorem processChunk_trace_ne (env : Env) (i : Nat) (c : Chunk)
    (hd : fileDone c.rife = false) (hin : fileExists c.input = true) :
    (processChunk env i c).2.1 ≠ [] := by
  unfold processChunk
  simp only [hd, hin, Bool.false_eq_true, if_false, Bool.not_true]
  cases h1 : (enhanceStage env i c).2.2 with
  | some er =>
    simp only [h1]
    intro hnil
    have := enhanceStage_nil env i c hnil
    rw [this] at h1
    simp at h1
  | none =>
    simp only [h1]
    cases h2 : (interpolateStage env i (enhanceStage env i c).1).2.2 with
    | some er =>
      simp only [h2]
      intro hnil
      rcases List.append_eq_nil.mp hnil with ⟨_, h⟩
      exact interpolateStage_trace_ne env i _ h
    | none =>
      simp only [h2]
      intro hnil
      rcases List.append_eq_nil.mp hnil with ⟨_, h⟩
      exact interpolateStage_trace_ne env i _ h

/-- Indices outside the processed window are untouched by the chunk
loop. -/
theorem runChunksAux_outside (env : Env) :
    ∀ (k s : Nat) (cs : Nat → Chunk) (j : Nat), (j < s ∨ s + k ≤ j) →
      (runChunksAux env s k cs).1 j = cs j := by
  intro k
  induction k with
  | zero => intro s cs j _; rfl
  | succ k ih =>
    intro s cs j hj
    have hjs : j ≠ s := by omega
    unfold runChunksAux
    cases herr : (processChunk env s (cs s)).2.2 with
    | some e =>
      simp only [herr]
      exact updAt_ne cs s j _ hjs
    | none =>
      simp only [herr]
      rw [ih (s + 1) (updAt cs s (processChunk env s (cs s)).1) j (by omega),
          updAt_ne cs s j _ hjs]

/-- Every event produced by the chunk loop comes from the iteration of one
index `j` of the window, applied to chunk `j`'s state at loop entry. -/
theorem runChunksAux_srcEvent (env : Env) :
    ∀ (k s : Nat) (cs : Nat → Chunk) (e : Ev),
      e ∈ (runChunksAux env s k cs).2.1 →
      ∃ j, s ≤ j ∧ j < s + k ∧ evChunk e = some j ∧
        e ∈ (processChunk env j (cs j)).2.1 := by
  intro k
  induction k with
  | zero => intro s cs e he; simp [runChunksAux] at he
  | succ k ih =>
    intro s cs e he
    unfold runChunksAux at he
    cases herr : (processChunk env s (cs s)).2.2 with
    | some er =>
      simp only [herr] at he
      exact ⟨s, le_refl s, by omega, processChunk_evChunk env s (cs s) e he, he⟩
    | none =>
      simp only [herr] at he
      rcases List.mem_append.mp he with h | h
      · exact ⟨s, le_refl s, by omega, processChunk_evChunk env s (cs s) e h, h⟩
      · have h2 := ih (s + 1) (updAt cs s (processChunk env s (cs s)).1) e h
        rcases h2 with ⟨j, hj1, hj2, hj3, hj4⟩
        have hjs : j ≠ s := by omega
        rw [updAt_ne cs s j _ hjs] at hj4
        exact ⟨j, by omega, by omega, hj3, hj4⟩

/-- When the whole loop succeeds, each window index ends in the state its
own iteration produced from its loop-entry state. -/
theorem runChunksAux_okState (env : Env) :
    ∀ (k s : Nat) (cs : Nat → Chunk),
      (runChunksAux env s k cs).2.2 = none →
      ∀ j, s ≤ j → j < s + k →
        (runChunksAux env s k cs).1 j = (processChunk env j (cs j)).1 ∧
        (processChunk env j (cs j)).2.2 = none := by
  intro k
  induction k with
  | zero => intro s cs _ j h1 h2; omega
  | succ k ih =>
    intro s cs hok j h1 h2
    unfold runChunksAux at hok ⊢
    cases herr : (processChunk env s (cs s)).2.2 with
    | some er =>
      simp only [herr] at hok
      exact absurd hok (by simp)
    | none =>
      simp only [herr] at hok ⊢
      rcases Nat.eq_or_lt_of_le h1 with heq | hlt
      · have hjs : j = s := heq.symm
        subst hjs
        constructor
        · rw [runChunksAux_outside env k (j + 1)
            (updAt cs j (processChunk env j (cs j)).1) j (by omega),
            updAt_eq]
        · exact herr
      · have h3 := ih (s + 1) (updAt cs s (processChunk env s (cs s)).1) hok j
          (by omega) (by omega)
        rw [updAt_ne cs s j _ (by omega)] at h3
        exact h3

/-- If every window iteration is a silent no-op (empty trace, no error) on
its loop-entry state, the loop produces no events and no error. -/
theorem runChunksAux_silent (env : Env) :
    ∀ (k s : Nat) (cs : Nat → Chunk),
      (∀ j, s ≤ j → j < s + k →
        (processChunk env j (cs j)).2.1 = [] ∧
        (processChunk env j (cs j)).2.2 = none) →
      (runChunksAux env s k cs).2.1 = [] ∧
      (runChunksAux env s k cs).2.2 = none := by
  intro k
  induction k with
  | zero => intro s cs _; exact ⟨rfl, rfl⟩
  | succ k ih =>
    intro s cs h
    unfold runChunksAux
    obtain ⟨htr, herr⟩ := h s (le_refl s) (by omega)
    have h2 := ih (s + 1) (updAt cs s (processChunk env s (cs s)).1) (by
      intro j hj1 hj2
      rw [updAt_ne cs s j _ (by omega)]
      exact h j (by omega) (by omega))
    simp only [herr, htr]
    simpa using h2

/-- If every window iteration succeeds on its loop-entry state, the loop
succeeds. -/
theorem runChunksAux_okOf (env : Env) :
    ∀ (k s : Nat) (cs : Nat → Chunk),
      (∀ j, s ≤ j → j < s + k → (processChunk env j (cs j)).2.2 = none) →
      (runChunksAux env s k cs).2.2 = none := by
  intro k
  induction k with
  | zero => intro s cs _; rfl
  | succ k ih =>
    intro s cs h
    unfold runChunksAux
    cases herr : (processChunk env s (cs s)).2.2 with
    | some er =>
      have hs := h s (le_refl s) (by omega)
      rw [herr] at hs
      exact Option.noConfusion hs
    | none =>
      simp only [herr]
      exact ih (s + 1) (updAt cs s _) (fun j h1 h2 => by
        rw [updAt_ne cs s j _ (by omega)]
        exact h j (by omega) (by omega))

/-- When the loop succeeds, each processed index's iteration raised no
error. -/
theorem runChunksAux_okErr (env : Env) (k s : Nat) (cs : Nat → Chunk)
    (hok : (runChunksAux env s k cs).2.2 = none)
    (j : Nat) (h1 : s ≤ j) (h2 : j < s + k) :
    (processChunk env j (cs j)).2.2 = none :=
  (runChunksAux_okState env k s cs hok j h1 h2).2

/-! ## Step-level preservation lemmas -/

theorem guardStep_same (fs : FS) (cur : Identity) (force : Bool)
    (response : String) (h : fs.metadata = some (some cur)) :
    guardStep fs cur force response =
      ({ fs with metadata := some (some cur) }, none) := by
  simp [guardStep, h]

theorem guardStep_corrupt (fs : FS) (cur : Identity) (force : Bool)
    (response : String) (h : fs.metadata = some none) :
    guardStep fs cur force response = (wipeAndRecord fs cur, none) := by
  simp [guardStep, h]

theorem audioStep_chunks (env : Env) (fs : FS) :
    (audioStep env fs).1.chunks = fs.chunks := by
  unfold audioStep
  split
  · rfl
  · split
    · rfl
    · dsimp only
      split <;> rfl

theorem audioStep_metadata (env : Env) (fs : FS) :
    (audioStep env fs).1.metadata = fs.metadata := by
  unfold audioStep
  split
  · rfl
  · split
    · rfl
    · dsimp only
      split <;> rfl

theorem audioStep_events (env : Env) (fs : FS) :
    ∀ e ∈ (audioStep env fs).2.1, e = Ev.audioExtract := by
  unfold audioStep
  split
  · intro e he; fin_cases he
  · split
    · intro e he; fin_cases he <;> rfl
    · dsimp only
      split
      · intro e he; fin_cases he <;> rfl
      · intro e he; fin_cases he <;> rfl

theorem audioStep_skip (env : Env) (fs : FS) (h : fileDone fs.audio = true) :
    audioStep env fs = (fs, [], none) := by
  simp [audioStep, h]

theorem audioStep_extract (env : Env) (fs : FS)
    (h : fileDone fs.audio = false) (hOk : env.audioOk = true)
    (hSz : 0 < env.audioSize) :
    audioStep env fs =
      ({ fs with audio := some env.audioSize }, [Ev.audioExtract], none) := by
  have h2 : fileDone (some env.audioSize) = true := by
    simp [fileDone, hSz]
  simp [audioStep, h, hOk, h2]

theorem splitStep_rife (env : Env) (fs : FS) (j : Nat) :
    ((splitStep env fs).1.chunks j).rife = (fs.chunks j).rife := by
  unfold splitStep
  split
  · rfl
  · split <;> rfl

theorem splitStep_metadata (env : Env) (fs : FS) :
    (splitStep env fs).1.metadata = fs.metadata := by
  unfold splitStep
  split
  · rfl
  · split <;> rfl

theorem splitStep_audio (env : Env) (fs : FS) :
    (splitStep env fs).1.audio = fs.audio := by
  unfold splitStep
  split
  · rfl
  · split <;> rfl

theorem splitStep_events (env : Env) (fs : FS) :
    ∀ e ∈ (splitStep env fs).2.1, e = Ev.split := by
  unfold splitStep
  split
  · intro e he; fin_cases he
  · split
    · intro e he; fin_cases he <;> rfl
    · intro e he; fin_cases he <;> rfl

theorem splitStep_skip (env : Env) (fs : FS)
    (h : fileExists (fs.chunks 0).input = true) :
    splitStep env fs = (fs, [], none) := by
  simp [splitStep, h]

theorem splitStep_run (env : Env) (fs : FS)
    (h : fileExists (fs.chunks 0).input = false) (hOk : env.splitOk = true) :
    splitStep env fs =
      ({ fs with chunks := fun i =>
          { fs.chunks i with
            input := match env.splitProduces i with
                     | some s => some s
                     | none => (fs.chunks i).input } },
       [Ev.split], none) := by
  simp [splitStep, h, hOk]

theorem concatStep_chunks (env : Env) (fs : FS) :
    (concatStep env fs).1.chunks = fs.chunks := by
  unfold concatStep
  split <;> rfl

theorem concatStep_events (env : Env) (fs : FS) :
    ∀ e ∈ (concatStep env fs).2.1, e = Ev.concat := by
  unfold concatStep
  split
  · intro e he; fin_cases he <;> rfl
  · intro e he; fin_cases he <;> rfl

theorem concatStep_ok (env : Env) (fs : FS) (h : env.concatOk = true) :
    concatStep env fs =
      ({ fs with finalVideo := some env.finalSize }, [Ev.concat], none) := by
  simp [concatStep, h]

/-! ## Claims -/

/-- Any value the `try` body of the estimator returns is already clamped
to `[10, 120]` seconds. -/
theorem autotuneCore_bounds (freeDiskGB : Option ℚ) (dims : Option (Nat × Nat))
    (fps : Option ℚ) (scaleFactor : Nat) (q : ℚ)
    (h : autotuneCore freeDiskGB dims fps scaleFactor = some q) :
    10 ≤ q ∧ q ≤ 120 := by
  rcases freeDiskGB with _ | free
  · simp [autotuneCore] at h
  rcases dims with _ | ⟨w, ht⟩
  · simp [autotuneCore] at h
  rcases fps with _ | f
  · simp [autotuneCore] at h
  unfold autotuneCore at h
  dsimp only at h
  split_ifs at h with h1 h2
  have hq := Option.some.inj h
  constructor
  · rw [← hq]
    have hmin : MIN_CHUNK_SEC = (10 : ℚ) := rfl
    rw [← hmin]
    exact le_max_left _ _
  · rw [← hq]
    refine max_le (by norm_num [MIN_CHUNK_SEC]) ?_
    have hmax : MAX_CHUNK_SEC = (120 : ℚ) := rfl
    rw [← hmax]
    exact min_le_right _ _

/-- Claim C3: for every input — including degenerate ones (zero free
space, zero frame rate, unreadable probes, all of which make the `try`
body fail) — `autotune_chunk_size` returns a chunk duration within
`[MIN_CHUNK_SECONDS, MAX_CHUNK_SECONDS] = [10, 120]`, and any estimation
failure falls back to the conservative default of 10 seconds instead of
aborting. -/
theorem claim_C3 (freeDiskGB : Option ℚ) (dims : Option (Nat × Nat))
    (fps : Option ℚ) (scaleFactor : Nat) :
    (10 ≤ autotune_chunk_size freeDiskGB dims fps scaleFactor ∧
     autotune_chunk_size freeDiskGB dims fps scaleFactor ≤ 120) ∧
    (autotuneCore freeDiskGB dims fps scaleFactor = none →
     autotune_chunk_size freeDiskGB dims fps scaleFactor = 10) := by
  constructor
  · unfold autotune_chunk_size
    cases hc : autotuneCore freeDiskGB dims fps scaleFactor with
    | none => exact ⟨by norm_num, by norm_num⟩
    | some q =>
      obtain ⟨hl, hr⟩ := autotuneCore_bounds freeDiskGB dims fps scaleFactor q hc
      constructor
      · exact Int.le_floor.mpr (by exact_mod_cast hl)
      · have hf : (⌊q⌋ : ℚ) ≤ 120 := le_trans (Int.floor_le q) hr
        exact_mod_cast hf
  · intro hnone
    unfold autotune_chunk_size
    rw [hnone]

/-- Claim C3 witness: a degenerate input (zero free disk space) takes the
fallback path and yields exactly 10 seconds, within bounds. -/
theorem claim_C3_witness :
    autotuneCore (some 0) (some (640, 480)) (some 30) 2 = none ∧
    autotune_chunk_size (some 0) (some (640, 480)) (some 30) 2 = 10 := by
  refine ⟨by decide, ?_⟩
  exact (claim_C3 (some 0) (some (640, 480)) (some 30) 2).2 (by decide)

/-- Claim C4: with the external RIFE/extraction/encode tools available,
the interpolation verification rejects (raises `verifyFail` for) every
chunk whose output frame count is strictly below `2 × input − 2`, and
accepts a chunk whose output frame count is exactly `2 × input` (the
chunk completes without error). -/
theorem claim_C4 (env : Env) (i : Nat) (c : Chunk)
    (hRife : fileDone c.rife = false) (hIn : fileExists c.input = true)
    (hEsr : fileDone c.esr = true)
    (hEx : env.extractOk i = true) (hR : env.rifeOk i = true)
    (hEn : env.encodeOk i = true) :
    (((env.outFrameCount i : Int) < (env.inFrameCount i : Int) * 2 - 2 →
      (processChunk env i c).2.2 = some Err.verifyFail) ∧
     (env.outFrameCount i = 2 * env.inFrameCount i →
      (processChunk env i c).2.2 = none)) := by
  constructor
  · intro hlt
    have hv : rifeVerifyFails (env.inFrameCount i) (env.outFrameCount i)
        = true := by
      simp only [rifeVerifyFails, decide_eq_true_eq]
      exact hlt
    simp [processChunk, hRife, hIn, enhanceStage, hEsr, interpolateStage,
          hEx, hR, hv]
  · intro heq
    have hv : rifeVerifyFails (env.inFrameCount i) (env.outFrameCount i)
        = false := by
      simp only [rifeVerifyFails, decide_eq_false_iff_not]
      rw [heq]
      push_cast
      omega
    simp [processChunk, hRife, hIn, enhanceStage, hEsr, interpolateStage,
          hEx, hR, hv, hEn]

/-- Claim C4 witness: a chunk with 10 input frames and exactly 20 output
frames is accepted. -/
theorem claim_C4_witness :
    (processChunk allOkEnv 0
      { input := some 1, esr := some 1, rife := none,
        inFramesDir := false, outFramesDir := false }).2.2 = none := by
  exact (claim_C4 allOkEnv 0
    { input := some 1, esr := some 1, rife := none,
      inFramesDir := false, outFramesDir := false }
    (by decide) (by decide) (by decide) rfl rfl rfl).2 rfl

/-- Claim C10: the interpolation verification enforces only a lower
bound — any output frame count at least `2 × input − 2` passes, with no
upper bound, and the chunk is then encoded and marked complete (its final
output is written). -/
theorem claim_C10 (env : Env) (i : Nat) (c : Chunk)
    (hRife : fileDone c.rife = false) (hIn : fileExists c.input = true)
    (hEsr : fileDone c.esr = true)
    (hEx : env.extractOk i = true) (hR : env.rifeOk i = true)
    (hEn : env.encodeOk i = true)
    (hGe : (env.inFrameCount i : Int) * 2 - 2 ≤ (env.outFrameCount i : Int)) :
    (processChunk env i c).2.2 = none ∧
    (processChunk env i c).1.rife = some (env.encSize i) := by
  have hv : rifeVerifyFails (env.inFrameCount i) (env.outFrameCount i)
      = false := by
    simp only [rifeVerifyFails, decide_eq_false_iff_not]
    omega
  constructor <;>
    simp [processChunk, hRife, hIn, enhanceStage, hEsr, interpolateStage,
          hEx, hR, hv, hEn, cleanupChunk]

/-- Claim C10 witness: a grossly over-interpolated chunk (10 input frames,
1000 output frames — 100× the input) passes verification and completes. -/
theorem claim_C10_witness :
    (processChunk
      { allOkEnv with outFrameCount := fun _ => 1000 } 0
      { input := some 1, esr := some 1, rife := none,
        inFramesDir := false, outFramesDir := false }).2.2 = none ∧
    (processChunk
      { allOkEnv with outFrameCount := fun _ => 1000 } 0
      { input := some 1, esr := some 1, rife := none,
        inFramesDir := false, outFramesDir := false }).1.rife = some 1 := by
  exact claim_C10 { allOkEnv with outFrameCount := fun _ => 1000 } 0
    { input := some 1, esr := some 1, rife := none,
      inFramesDir := false, outFramesDir := false }
    (by decide) (by decide) (by decide) rfl rfl rfl (by decide)

/-- Claim C5: with a persisted identity record differing from the current
job's (absolute source path, scale factor), no force flag, and a prompt
response that is not an affirmative `y`, the run exits with a non-zero
status (`sys.exit(1)`), performs no external-tool invocation (empty
trace — in particular no chunk work), and leaves the entire working
directory, including every chunk artifact, untouched. -/
theorem claim_C5 (env : Env) (N : Nat) (cur old : Identity)
    (response : String) (fs : FS)
    (hMeta : fs.metadata = some (some old)) (hNe : old ≠ cur)
    (hResp : strLower response ≠ "y") :
    run env N cur false response fs = (fs, [], some Err.conflictExit) := by
  have hg : guardStep fs cur false response = (fs, some Err.conflictExit) := by
    simp [guardStep, hMeta, hNe, hResp]
  simp [run, hg]

/-- Claim C5 witness: an existing record for (A, 2) against a request for
(A, 4), refused at the prompt with `n`: the run exits with the conflict
error, an empty invocation trace, and an unchanged filesystem. -/
theorem claim_C5_witness :
    run allOkEnv 1 { inputVideo := "/abs/video.avi", scaleFactor := 4 }
        false "n"
        { emptyFS with metadata := some (some jobId) } =
      ({ emptyFS with metadata := some (some jobId) }, [],
       some Err.conflictExit) := by
  exact claim_C5 allOkEnv 1
    { inputVideo := "/abs/video.avi", scaleFactor := 4 } jobId "n"
    { emptyFS with metadata := some (some jobId) }
    rfl (by decide) (by decide)

/-- Working directory with a corrupt identity record and a completed
chunk 0. -/
def corruptFS : FS :=
  { metadata := some none, audio := none,
    chunks := fun i =>
      if i = 0 then { emptyChunk with rife := some 5 } else emptyChunk,
    finalVideo := none }

/-- Claim C9 counterexample: a corrupt identity record together with a
refused prompt (`n`, no force flag) and an existing completed chunk.  Were
the corrupt record resolved through the conflict policy that governs a
mismatched record, the run would exit with `conflictExit` and do no chunk
work; instead the run proceeds to completion and re-runs chunk 0's
enhancement stage (the prior state having been discarded without asking). -/
theorem claim_C9_counterexample :
    (run allOkEnv 1 jobId false "n" corruptFS).2.2 ≠ some Err.conflictExit ∧
    Ev.prefilter 0 ∈ (run allOkEnv 1 jobId false "n" corruptFS).2.1 := by
  decide

/-- Claim C9 (amended): a corrupt/unreadable identity record is never
silently ignored — the entire working directory (audio and all chunk
state) is discarded and the identity rewritten — but the discard is
unconditional (auto-discard): it bypasses the force-flag/prompt/abort
policy that governs a readable mismatched record, proceeding identically
for every force flag and prompt response. -/
theorem claim_C9_amended (fs : FS) (cur : Identity) (force : Bool)
    (response : String) (h : fs.metadata = some none) :
    guardStep fs cur force response = (wipeAndRecord fs cur, none) ∧
    (wipeAndRecord fs cur).audio = none ∧
    (∀ i, (wipeAndRecord fs cur).chunks i = emptyChunk) ∧
    (wipeAndRecord fs cur).metadata = some (some cur) :=
  ⟨guardStep_corrupt fs cur force response h, rfl, fun _ => rfl, rfl⟩

/-- Claim C9 amended witness: a concrete corrupt record under a refusal
response and no force flag is still wiped and the run proceeds. -/
theorem claim_C9_witness :
    guardStep { emptyFS with metadata := some none } jobId false "n" =
      (wipeAndRecord { emptyFS with metadata := some none } jobId, none) :=
  (claim_C9_amended { emptyFS with metadata := some none } jobId false "n"
    rfl).1

/-- Claim C8 counterexample: the RIFE encode writes the final chunk video
directly to its designated output path (`rife_output_file` is the output
argument of the ffmpeg encode invocation, with no staging name and no
rename), and audio extraction likewise writes `ORIGINAL_AUDIO_FILE`
directly — so not every producing component writes to a temporary name
and renames on success. -/
theorem claim_C8_counterexample :
    stagedWrite (encodeWriteOps 0 "59.940") (rifeOutputFile 0) = false ∧
    FsOp.writeTo (rifeOutputFile 0) ∈ encodeWriteOps 0 "59.940" ∧
    stagedWrite (audioWriteOps "video.avi" "video")
      (originalAudioFile "video") = false ∧
    FsOp.writeTo (originalAudioFile "video") ∈
      audioWriteOps "video.avi" "video" := by
  decide

/-- Claim C8 (amended): only the enhancement stage stages its output —
Real-ESRGAN writes into a scratch directory and the single candidate is
renamed onto the canonical enhanced-video path on success — while the
final chunk video (RIFE encode) and the extracted audio are written by
ffmpeg directly to their designated paths, so an interrupted write of
those two artifacts can satisfy a later existence check. -/
theorem claim_C8_amended (i : Nat) (ext cand inputVideo basename fps : String)
    (hCand : candidatePath i cand ≠ esrganOutputFile i)
    (hPre : prefilteredChunk i ≠ esrganOutputFile i) :
    stagedWrite (esrganWriteOps i ext cand) (esrganOutputFile i) = true ∧
    stagedWrite (encodeWriteOps i fps) (rifeOutputFile i) = false ∧
    FsOp.writeTo (rifeOutputFile i) ∈ encodeWriteOps i fps ∧
    stagedWrite (audioWriteOps inputVideo basename)
      (originalAudioFile basename) = false ∧
    FsOp.writeTo (originalAudioFile basename) ∈
      audioWriteOps inputVideo basename := by
  refine ⟨?_, ?_, ?_, ?_, ?_⟩
  · simp [stagedWrite, esrganWriteOps, cmd_prefilter, hPre, hCand,
          List.getLastD]
  · simp [stagedWrite, encodeWriteOps]
  · simp [encodeWriteOps, cmd_encode, List.getLastD]
  · simp [stagedWrite, audioWriteOps]
  · simp [audioWriteOps, cmd_audio, List.getLastD]

/-- Claim C8 amended witness: concrete chunk 1 with a concrete candidate
name: the enhanced video is staged-then-renamed, the encode and audio are
direct writes. -/
theorem claim_C8_witness :
    stagedWrite (esrganWriteOps 1 ".avi" "chunk_001_prefiltered_out.mp4")
      (esrganOutputFile 1) = true ∧
    stagedWrite (encodeWriteOps 1 "50.0") (rifeOutputFile 1) = false ∧
    FsOp.writeTo (rifeOutputFile 1) ∈ encodeWriteOps 1 "50.0" ∧
    stagedWrite (audioWriteOps "video.avi" "video")
      (originalAudioFile "video") = false ∧
    FsOp.writeTo (originalAudioFile "video") ∈
      audioWriteOps "video.avi" "video" :=
  claim_C8_amended 1 ".avi" "chunk_001_prefiltered_out.mp4" "video.avi"
    "video" "50.0" (by decide) (by decide)

/-- On a window that is fully present up to the first gap `p`, the
index-walking loop of the Reassembler collects exactly `range' s (p-s)`. -/
theorem contigGo_range (rife : Nat → Option Nat) (p : Nat)
    (hex : ∀ j, j < p → fileExists (rife j) = true)
    (hgap : fileExists (rife p) = false) :
    ∀ (k s : Nat), s ≤ p → p ≤ s + k →
      contigGo rife s k = List.range' s (p - s) := by
  intro k
  induction k with
  | zero =>
    intro s h1 h2
    have hsp : s = p := by omega
    subst hsp
    simp [contigGo]
  | succ k ih =>
    intro s h1 h2
    rcases Nat.eq_or_lt_of_le h1 with heq | hlt
    · subst heq
      unfold contigGo
      rw [hgap]
      simp
    · unfold contigGo
      rw [hex s hlt]
      simp only [if_true]
      rw [ih (s + 1) (by omega) (by omega)]
      have hps : p - s = (p - (s + 1)) + 1 := by omega
      rw [hps, List.range'_succ]

/-- The glob count is at least the length of the contiguous prefix. -/
theorem contigLen_le_globCount (rife : Nat → Option Nat) (p bound : Nat)
    (hex : ∀ j, j < p → fileExists (rife j) = true) (hpb : p ≤ bound) :
    p ≤ globCount rife bound := by
  have hsub : List.Sublist (List.range p) (List.range bound) :=
    List.range_sublist.mpr hpb
  have hfil := hsub.filter (fun i => fileExists (rife i))
  have heq : (List.range p).filter (fun i => fileExists (rife i)) =
      List.range p :=
    List.filter_eq_self.mpr (fun a ha => hex a (List.mem_range.mp ha))
  have hlen := hfil.length_le
  rw [heq] at hlen
  simpa [globCount] using hlen

/-- Claim C6: when `p` is the first missing index (all final chunk outputs
`0..p-1` exist, `p` does not) and every existing output has index below
`bound`, the Reassembler concatenation list — built over the number of
files the glob found — is exactly `[0, 1, ..., p-1]` in index order: the
contiguous prefix, excluding every chunk beyond the first gap even when
such a chunk's file exists. -/
theorem claim_C6 (rife : Nat → Option Nat) (p bound : Nat)
    (hex : ∀ j, j < p → fileExists (rife j) = true)
    (hgap : fileExists (rife p) = false)
    (hpb : p ≤ bound) :
    contigList rife (globCount rife bound) = List.range p := by
  have hle := contigLen_le_globCount rife p bound hex hpb
  unfold contigList
  rw [contigGo_range rife p hex hgap (globCount rife bound) 0 (by omega)
      (by omega)]
  rw [List.range_eq_range' p]
  norm_num

/-- Final chunk outputs at indices 0, 1 and 3 — a gap at 2. -/
def gapRife : Nat → Option Nat := fun j =>
  if j ≤ 1 then some 1 else if j = 3 then some 7 else none

/-- Claim C6 witness: with outputs at 0, 1 and 3 (gap at 2), the list is
exactly `[0, 1]`; index 3 exists but is excluded. -/
theorem claim_C6_witness :
    fileExists (gapRife 3) = true ∧
    contigList gapRife (globCount gapRife 10) = List.range 2 := by
  constructor
  · decide
  · exact claim_C6 gapRife 2 10 (by decide) (by decide) (by decide)

/-- Working directory for a matching job whose first input segment exists
but is empty (size 0). -/
def emptyInputFS : FS :=
  { metadata := some (some jobId), audio := none,
    chunks := fun i =>
      if i = 0 then { emptyChunk with input := some 0 } else emptyChunk,
    finalVideo := none }

/-- Claim C7 counterexample: the split-skip decision does not test
non-zero size.  With `chunk_000` present but empty (size 0), the run
skips the split entirely — were the check existence AND non-zero size, the
split would have been re-invoked. -/
theorem claim_C7_counterexample :
    (emptyInputFS.chunks 0).input = some 0 ∧
    Ev.split ∉ (run allOkEnv 1 jobId false "" emptyInputFS).2.1 := by
  decide

/-- Claim C7 (amended): the audio-extraction, enhancement and chunk skip
checks test existence AND non-zero size (an empty file is re-produced, a
non-empty one is consumed as complete); but the split skip and the
Reassembler enumeration test existence only (an empty `chunk_000`
suppresses the split; an empty final chunk output is still listed for
concatenation).  No ledger other than these file checks is consulted. -/
theorem claim_C7_amended (env : Env) (fs : FS) (i : Nat) (c : Chunk)
    (s : Nat) (rife : Nat → Option Nat) (t : Nat) :
    (fileExists (fs.chunks 0).input = true → splitStep env fs = (fs, [], none)) ∧
    (fs.audio = some 0 → Ev.audioExtract ∈ (audioStep env fs).2.1) ∧
    (fs.audio = some (s + 1) → audioStep env fs = (fs, [], none)) ∧
    (c.esr = some 0 → Ev.prefilter i ∈ (enhanceStage env i c).2.1) ∧
    (c.esr = some (s + 1) → enhanceStage env i c = (c, [], none)) ∧
    (c.rife = some (s + 1) → processChunk env i c = (cleanupChunk c, [], none)) ∧
    (c.rife = some 0 → fileExists c.input = true →
      (processChunk env i c).2.1 ≠ []) ∧
    (fileExists (rife 0) = true → 0 ∈ contigList rife (t + 1)) := by
  refine ⟨?_, ?_, ?_, ?_, ?_, ?_, ?_, ?_⟩
  · exact fun h => splitStep_skip env fs h
  · intro h
    unfold audioStep
    rw [h]
    simp only [fileDone]
    split_ifs <;> simp_all
  · intro h
    exact audioStep_skip env fs (by simp [h, fileDone])
  · intro h
    unfold enhanceStage
    rw [h]
    simp only [fileDone]
    split_ifs <;> simp_all
  · intro h
    simp [enhanceStage, h, fileDone]
  · intro h
    exact processChunk_done env i c (by simp [h, fileDone])
  · intro h hin
    exact processChunk_trace_ne env i c (by simp [h, fileDone]) hin
  · intro h
    unfold contigList contigGo
    rw [h]
    simp

/-- Claim C7 amended witness: the concrete job with an empty `chunk_000`
has its split skipped, and an empty final chunk output at index 0 is
still listed by the Reassembler. -/
theorem claim_C7_witness :
    splitStep allOkEnv emptyInputFS = (emptyInputFS, [], none) ∧
    0 ∈ contigList (fun j => if j = 0 then some 0 else none) 3 := by
  constructor
  · exact (claim_C7_amended allOkEnv emptyInputFS 0 emptyChunk 0
      (fun j => if j = 0 then some 0 else none) 2).1 (by decide)
  · exact (claim_C7_amended allOkEnv emptyInputFS 0 emptyChunk 0
      (fun j => if j = 0 then some 0 else none) 2).2.2.2.2.2.2.2 (by decide)

/-- Claim C1 counterexample: for a valid 1-chunk job that ran to
successful completion from a fresh working directory, the second run on
the unmodified directory still invokes the split (the completed chunk's
input segment was deleted by cleanup, and the split-skip check keys on
`chunk_000`) and the final concatenation (which is unconditional) — so
the split and the concatenation are not skipped on the second run. -/
theorem claim_C1_counterexample :
    (run allOkEnv 1 jobId false "" emptyFS).2.2 = none ∧
    Ev.split ∈ (run allOkEnv 1 jobId false ""
      (run allOkEnv 1 jobId false "" emptyFS).1).2.1 ∧
    Ev.concat ∈ (run allOkEnv 1 jobId false ""
      (run allOkEnv 1 jobId false "" emptyFS).1).2.1 := by
  decide

/-- Claim C1 (amended): for every job of at least one chunk whose external
tools all succeed and produce non-empty artifacts, a first run from a
fresh working directory completes successfully, and the second run on the
unmodified directory skips the audio extraction and every per-chunk
enhancement/interpolation stage, but still re-invokes exactly the split
(completed chunks' input segments were deleted by cleanup, and the
split-skip check keys on `chunk_000`) and the unconditional final
concatenation: its external-tool trace is exactly
`[split, concat]`. -/
theorem claim_C1_amended (env : Env) (N : Nat) (cur : Identity)
    (force : Bool) (response : String)
    (hN : 1 ≤ N)
    (hA : env.audioOk = true) (hAs : 0 < env.audioSize)
    (hS : env.splitOk = true)
    (hPF : ∀ i, env.prefilterOk i = true) (hE : ∀ i, env.esrganOk i = true)
    (hCand : ∀ i, env.candCount i = 1)
    (hEx : ∀ i, env.extractOk i = true) (hR : ∀ i, env.rifeOk i = true)
    (hV : ∀ i, rifeVerifyFails (env.inFrameCount i) (env.outFrameCount i)
      = false)
    (hEn : ∀ i, env.encodeOk i = true) (hEnc : ∀ i, 0 < env.encSize i)
    (hC : env.concatOk = true) :
    (run env N cur force response emptyFS).2.2 = none ∧
    (run env N cur force response
      (run env N cur force response emptyFS).1).2.1 =
      [Ev.split, Ev.concat] := by
  -- step equations of the first run
  have hg : guardStep emptyFS cur force response =
      ({ emptyFS with metadata := some (some cur) }, none) := rfl
  set fs0 : FS := { emptyFS with metadata := some (some cur) } with hfs0
  have ha : audioStep env fs0 =
      ({ fs0 with audio := some env.audioSize }, [Ev.audioExtract], none) :=
    audioStep_extract env fs0 rfl hA hAs
  set fs1 : FS := { fs0 with audio := some env.audioSize } with hfs1
  have hs : splitStep env fs1 =
      ({ fs1 with chunks := fun i =>
          { fs1.chunks i with
            input := match env.splitProduces i with
                     | some v => some v
                     | none => (fs1.chunks i).input } },
       [Ev.split], none) :=
    splitStep_run env fs1 rfl hS
  set csS : Nat → Chunk := fun i =>
    { fs1.chunks i with
      input := match env.splitProduces i with
               | some v => some v
               | none => (fs1.chunks i).input } with hcsS
  -- each chunk of the first run either has no input (skipped) or is
  -- processed to completion
  have hpc : ∀ j, j < N →
      (processChunk env j (csS j)).2.2 = none ∧
      (processChunk env j (csS j)).1.input = none ∧
      (processChunk env j (csS j)).1.rife =
        (match env.splitProduces j with
         | none => none
         | some _ => some (env.encSize j)) := by
    intro j _
    cases hspj : env.splitProduces j with
    | none =>
      have hcj : csS j = emptyChunk := by
        simp [hcsS, hspj, hfs1, hfs0, emptyFS, emptyChunk]
      rw [hcj, processChunk_noInput env j emptyChunk rfl rfl]
      exact ⟨rfl, rfl, rfl⟩
    | some v =>
      have hcj : csS j = { emptyChunk with input := some v } := by
        simp [hcsS, hspj, hfs1, hfs0, emptyFS, emptyChunk]
      rw [hcj, processChunk_fresh env j { emptyChunk with input := some v }
        rfl rfl rfl (hPF j) (hE j) (hCand j) (hEx j) (hR j) (hV j) (hEn j)]
      exact ⟨rfl, rfl, rfl⟩
  have hloopErr : (runChunksAux env 0 N csS).2.2 = none :=
    runChunksAux_okOf env N 0 csS (fun j _ h2 => (hpc j (by omega)).1)
  have hconcat := concatStep_ok env
    { ({ fs1 with chunks := csS } : FS) with
      chunks := (runChunksAux env 0 N csS).1 } hC
  have hrun1err : (run env N cur force response emptyFS).2.2 = none := by
    simp only [run, hg, ha, hs, hloopErr, hconcat]
  refine ⟨hrun1err, ?_⟩
  -- the final state of the first run
  set F : FS := (run env N cur force response emptyFS).1 with hFdef
  have hFeq : F = ⟨fs1.metadata, fs1.audio,
      (runChunksAux env 0 N csS).1, some env.finalSize⟩ := by
    rw [hFdef]
    simp only [run, hg, ha, hs, hloopErr, hconcat]
  have hFmeta : F.metadata = some (some cur) := by rw [hFeq]
  have hFaudio : F.audio = some env.audioSize := by rw [hFeq]
  have hokst := runChunksAux_okState env N 0 csS hloopErr
  have hFchunks : ∀ j, j < N → F.chunks j = (processChunk env j (csS j)).1 := by
    intro j hj
    rw [hFeq]
    exact (hokst j (by omega) (by omega)).1
  -- second run: guard passes on the matching record
  have hg2 : guardStep F cur force response =
      ({ F with metadata := some (some cur) }, none) :=
    guardStep_same F cur force response hFmeta
  set F0 : FS := { F with metadata := some (some cur) } with hF0
  have ha2 : audioStep env F0 = (F0, [], none) := by
    refine audioStep_skip env F0 ?_
    rw [show F0.audio = F.audio from rfl, hFaudio]
    simp [fileDone, hAs]
  have hin0 : (F0.chunks 0).input = none := by
    rw [show F0.chunks 0 = F.chunks 0 from rfl, hFchunks 0 (by omega)]
    exact (hpc 0 (by omega)).2.1
  set csS2 : Nat → Chunk := fun i =>
    { F0.chunks i with
      input := match env.splitProduces i with
               | some v => some v
               | none => (F0.chunks i).input } with hcsS2
  have hs2 : splitStep env F0 = ({ F0 with chunks := csS2 }, [Ev.split], none) := by
    have hcond : fileExists (F0.chunks 0).input = false := by
      rw [hin0]
      rfl
    exact splitStep_run env F0 hcond hS
  -- every chunk of the second run is a silent no-op
  have hpc2 : ∀ j, 0 ≤ j → j < 0 + N →
      (processChunk env j (csS2 j)).2.1 = [] ∧
      (processChunk env j (csS2 j)).2.2 = none := by
    intro j _ hj2
    have hj : j < N := by omega
    have hPj := hFchunks j hj
    have hrifej : (csS2 j).rife = (processChunk env j (csS j)).1.rife := by
      rw [show (csS2 j).rife = (F.chunks j).rife from rfl, hPj]
    cases hspj : env.splitProduces j with
    | some v =>
      have h3 := (hpc j hj).2.2
      rw [hspj] at h3
      have hdone : fileDone (csS2 j).rife = true := by
        rw [hrifej, h3]
        simp [fileDone, hEnc j]
      rw [processChunk_done env j _ hdone]
      exact ⟨rfl, rfl⟩
    | none =>
      have h3 := (hpc j hj).2.2
      rw [hspj] at h3
      have hdone : fileDone (csS2 j).rife = false := by
        rw [hrifej, h3]
        rfl
      have hninp : fileExists (csS2 j).input = false := by
        have hi2 : (csS2 j).input = (F.chunks j).input := by
          rw [show (csS2 j).input =
            (match env.splitProduces j with
             | some v => some v
             | none => (F.chunks j).input) from rfl, hspj]
        rw [hi2, hFchunks j hj, (hpc j hj).2.1]
        rfl
      rw [processChunk_noInput env j _ hdone hninp]
      exact ⟨rfl, rfl⟩
  have hsilent := runChunksAux_silent env N 0 csS2 hpc2
  have hconcat2 := concatStep_ok env
    { ({ F0 with chunks := csS2 } : FS) with
      chunks := (runChunksAux env 0 N csS2).1 } hC
  simp only [run, hg2, ha2, hs2, hsilent.1, hsilent.2, hconcat2]
  rfl

/-- Claim C1 amended witness: the concrete all-succeeding 1-chunk job —
first run completes, second run's trace is exactly the redundant split
and final concatenation. -/
theorem claim_C1_witness :
    (run allOkEnv 1 jobId false "" emptyFS).2.2 = none ∧
    (run allOkEnv 1 jobId false ""
      (run allOkEnv 1 jobId false "" emptyFS).1).2.1 =
      [Ev.split, Ev.concat] := by
  apply claim_C1_amended allOkEnv 1 jobId false "" <;>
    first
      | rfl
      | decide
      | exact fun _ => rfl
      | exact fun _ => Nat.one_pos

/-- Claim C2: for a run over the same job (matching identity record), if
chunk `i < totalChunks` already has a non-empty final output before the
run starts, the run performs no per-chunk stage invocation for chunk `i`
(no prefilter, enhancement, frame extraction, interpolation or encode
event carries index `i`, whether or not the run later aborts), and if the
run completes, chunk `i`'s stray intermediates — input segment, enhanced
video and both frame directories — are gone from the final state while
its final output is preserved. -/
theorem claim_C2 (env : Env) (N : Nat) (cur : Identity) (force : Bool)
    (response : String) (fs : FS) (i : Nat)
    (hMeta : fs.metadata = some (some cur))
    (hi : i < N)
    (hDone : fileDone (fs.chunks i).rife = true) :
    (∀ e ∈ (run env N cur force response fs).2.1, evChunk e ≠ some i) ∧
    ((run env N cur force response fs).2.2 = none →
      ((run env N cur force response fs).1.chunks i).input = none ∧
      ((run env N cur force response fs).1.chunks i).esr = none ∧
      ((run env N cur force response fs).1.chunks i).inFramesDir = false ∧
      ((run env N cur force response fs).1.chunks i).outFramesDir = false ∧
      ((run env N cur force response fs).1.chunks i).rife =
        (fs.chunks i).rife) := by
  have hg : guardStep fs cur force response =
      ({ fs with metadata := some (some cur) }, none) :=
    guardStep_same fs cur force response hMeta
  set fs0 : FS := { fs with metadata := some (some cur) } with hfs0
  -- chunk i's final output survives the audio and split steps
  have hcsrife :
      ((splitStep env (audioStep env fs0).1).1.chunks i).rife =
        (fs.chunks i).rife := by
    rw [splitStep_rife, audioStep_chunks]
  have hpcdone :
      processChunk env i
        ((splitStep env (audioStep env fs0).1).1.chunks i) =
      (cleanupChunk ((splitStep env (audioStep env fs0).1).1.chunks i),
       [], none) :=
    processChunk_done env i _ (by rw [hcsrife]; exact hDone)
  constructor
  · intro e he
    simp only [run, hg] at he
    cases hae : (audioStep env fs0).2.2 with
    | some ea =>
      simp only [hae] at he
      have h1 := audioStep_events env fs0 e he
      simp [h1, evChunk]
    | none =>
      simp only [hae] at he
      cases hse : (splitStep env (audioStep env fs0).1).2.2 with
      | some es =>
        simp only [hse] at he
        rcases List.mem_append.mp he with h | h
        · have h1 := audioStep_events env fs0 e h
          simp [h1, evChunk]
        · have h1 := splitStep_events env (audioStep env fs0).1 e h
          simp [h1, evChunk]
      | none =>
        simp only [hse] at he
        cases hle : (runChunksAux env 0 N
            (splitStep env (audioStep env fs0).1).1.chunks).2.2 with
        | some el =>
          simp only [hle] at he
          rcases List.mem_append.mp he with h | h
          · rcases List.mem_append.mp h with h2 | h2
            · have h1 := audioStep_events env fs0 e h2
              simp [h1, evChunk]
            · have h1 := splitStep_events env (audioStep env fs0).1 e h2
              simp [h1, evChunk]
          · rcases runChunksAux_srcEvent env N 0 _ e h with
              ⟨j, _, _, hj3, hj4⟩
            intro hcon
            rw [hcon] at hj3
            have hij : i = j := Option.some.inj hj3
            rw [← hij, hpcdone] at hj4
            exact absurd hj4 (by simp)
        | none =>
          simp only [hle] at he
          rcases List.mem_append.mp he with h | h
          · rcases List.mem_append.mp h with h2 | h2
            · rcases List.mem_append.mp h2 with h3 | h3
              · have h1 := audioStep_events env fs0 e h3
                simp [h1, evChunk]
              · have h1 := splitStep_events env (audioStep env fs0).1 e h3
                simp [h1, evChunk]
            · rcases runChunksAux_srcEvent env N 0 _ e h2 with
                ⟨j, _, _, hj3, hj4⟩
              intro hcon
              rw [hcon] at hj3
              have hij : i = j := Option.some.inj hj3
              rw [← hij, hpcdone] at hj4
              exact absurd hj4 (by simp)
          · have h1 := concatStep_events env _ e h
            simp [h1, evChunk]
  · intro hok
    simp only [run, hg] at hok ⊢
    cases hae : (audioStep env fs0).2.2 with
    | some ea =>
      rw [hae] at hok
      exact absurd hok (by simp)
    | none =>
      simp only [hae] at hok ⊢
      cases hse : (splitStep env (audioStep env fs0).1).2.2 with
      | some es =>
        rw [hse] at hok
        exact absurd hok (by simp)
      | none =>
        simp only [hse] at hok ⊢
        cases hle : (runChunksAux env 0 N
            (splitStep env (audioStep env fs0).1).1.chunks).2.2 with
        | some el =>
          rw [hle] at hok
          exact absurd hok (by simp)
        | none =>
          simp only [hle]
          have hst := (runChunksAux_okState env N 0 _ hle i (by omega)
            (by omega)).1
          rw [concatStep_chunks]
          dsimp only
          have hchunks :
              (runChunksAux env 0 N
                (splitStep env (audioStep env fs0).1).1.chunks).1 i =
              cleanupChunk
                ((splitStep env (audioStep env fs0).1).1.chunks i) := by
            rw [hst, hpcdone]
          rw [hchunks]
          exact ⟨rfl, rfl, rfl, rfl, hcsrife⟩

/-- Working directory of the matching job whose chunk 0 is complete
(final output of size 5) but still has stray intermediates. -/
def doneFS : FS :=
  { metadata := some (some jobId), audio := some 1,
    chunks := fun i =>
      if i = 0 then
        { input := some 3, esr := some 2, rife := some 5,
          inFramesDir := true, outFramesDir := true }
      else emptyChunk,
    finalVideo := none }

/-- Claim C2 witness: a 1-chunk job whose chunk 0 final output (size 5)
already exists: the completed run emits no chunk-0 stage event, removes
the stray intermediates and keeps the final output. -/
theorem claim_C2_witness :
    (∀ e ∈ (run allOkEnv 1 jobId false "" doneFS).2.1, evChunk e ≠ some 0) ∧
    ((run allOkEnv 1 jobId false "" doneFS).2.2 = none →
      ((run allOkEnv 1 jobId false "" doneFS).1.chunks 0).input = none ∧
      ((run allOkEnv 1 jobId false "" doneFS).1.chunks 0).esr = none ∧
      ((run allOkEnv 1 jobId false "" doneFS).1.chunks 0).inFramesDir = false ∧
      ((run allOkEnv 1 jobId false "" doneFS).1.chunks 0).outFramesDir = false ∧
      ((run allOkEnv 1 jobId false "" doneFS).1.chunks 0).rife =
        (doneFS.chunks 0).rife) :=
  claim_C2 allOkEnv 1 jobId false "" doneFS 0 rfl (by decide) (by decide)

end VhsPipeline
